import Mathlib

/-!
Verification of the flashcard-study spaced-repetition core.

Shallow embedding of `src/flashcards/utils.py`, `src/flashcards/models.py`
and the review-submission flow of `src/flashcards/views.py`.

Modelling conventions:
* Python `float` values (ease factors, quality deltas) are modelled as exact
  rationals `ℚ`; decimal literals such as `0.1` denote the exact rational.
* Python `int` is `ℤ`; database ids and users are `ℤ`.
* Timestamps are `ℤ` seconds; `timedelta(days = n)` is `86400 * n` seconds.
* Python `round` (round-half-to-even, banker's rounding) is `pythonRound`.
* Django querysets over a table are lists in storage order; `.filter` is
  `List.filter`, `.first()` is `List.head?`, and `.order_by(k)` is a stable
  sort on the key `k` (ties keep storage order, as no further key is given).
-/

namespace Flashcards

/-- Python's built-in `round` to an integer: round half to even. -/
def pythonRound (x : ℚ) : ℤ :=
  let f := ⌊x⌋
  if x - f < 1/2 then f
  else if 1/2 < x - f then f + 1
  else if f % 2 = 0 then f else f + 1

/-- Scheduling state mutated by `calculate_next_review`
(the SM-2 fields of `UserCardProgress` / legacy `Card`, models.py). -/
structure Progress where
  easeFactor : ℚ
  interval : ℤ
  repetitions : ℤ
  nextReview : ℤ
deriving DecidableEq, Repr

/-- `calculate_next_review` from `src/flashcards/utils.py` (lines 13-64).
`quality` is the user's self-assessment, `now` is `timezone.now()` in seconds. -/
def calculate_next_review (p : Progress) (quality : ℤ) (now : ℤ) : Progress :=
  let p1 :=
    if quality < 3 then
      -- Failed: reset repetitions, review tomorrow
      { p with repetitions := 0, interval := 1 }
    else
      -- Passed: increase interval
      let p2 :=
        if p.repetitions = 0 then { p with interval := 1 }
        else if p.repetitions = 1 then { p with interval := 6 }
        else { p with interval := pythonRound ((p.interval : ℚ) * p.easeFactor) }
      { p2 with repetitions := p2.repetitions + 1 }
  -- Adjust ease factor based on performance
  let ef := max (1.3 : ℚ)
    (p1.easeFactor +
      ((0.1 : ℚ) - (5 - (quality : ℚ)) * ((0.08 : ℚ) + (5 - (quality : ℚ)) * (0.02 : ℚ))))
  -- Set next review date
  { p1 with easeFactor := ef, nextReview := now + 86400 * p1.interval }

/-- The ease factor after a review never examines any field but the prior
ease factor, in either branch. -/
theorem calculate_next_review_easeFactor (p : Progress) (quality now : ℤ) :
    (calculate_next_review p quality now).easeFactor =
      max (1.3 : ℚ)
        (p.easeFactor +
          ((0.1 : ℚ) - (5 - (quality : ℚ)) * ((0.08 : ℚ) + (5 - (quality : ℚ)) * (0.02 : ℚ)))) := by
  unfold calculate_next_review
  split <;> [rfl; (split <;> [rfl; (split <;> rfl)])]

/-- Any branch of `pythonRound` returns at least the floor. -/
theorem le_pythonRound_of_le {x : ℚ} {n : ℤ} (h : (n : ℚ) ≤ x) : n ≤ pythonRound x := by
  have hf : n ≤ ⌊x⌋ := Int.le_floor.2 h
  unfold pythonRound
  dsimp only
  split
  · exact hf
  · split
    · omega
    · split <;> omega

/-- C1: For every progress state and every quality in {0,1,2}, the scheduler
(`calculate_next_review`) returns a progress with `repetitions = 0` and
`interval = 1`, regardless of the prior ease factor, interval or repetitions. -/
theorem failure_resets_progress (p : Progress) (quality now : ℤ)
    (h : quality = 0 ∨ quality = 1 ∨ quality = 2) :
    (calculate_next_review p quality now).repetitions = 0 ∧
      (calculate_next_review p quality now).interval = 1 := by
  have hq : quality < 3 := by rcases h with h | h | h <;> omega
  unfold calculate_next_review
  simp [hq]

theorem failure_resets_progress_witness :
    (calculate_next_review ⟨2.5, 10, 7, 0⟩ 1 0).repetitions = 0 ∧
      (calculate_next_review ⟨2.5, 10, 7, 0⟩ 1 0).interval = 1 :=
  failure_resets_progress ⟨2.5, 10, 7, 0⟩ 1 0 (Or.inr (Or.inl rfl))

/-- C2: For every progress state and every quality in {3,4,5}, the scheduler
sets the interval to 1 when prior repetitions = 0, to 6 when prior
repetitions = 1, to `round(interval * ease_factor)` when prior
repetitions ≥ 2, and increments repetitions by exactly 1. -/
theorem success_updates_interval (p : Progress) (quality now : ℤ)
    (h : quality = 3 ∨ quality = 4 ∨ quality = 5) :
    (p.repetitions = 0 → (calculate_next_review p quality now).interval = 1) ∧
    (p.repetitions = 1 → (calculate_next_review p quality now).interval = 6) ∧
    (2 ≤ p.repetitions →
      (calculate_next_review p quality now).interval =
        pythonRound ((p.interval : ℚ) * p.easeFactor)) ∧
    (calculate_next_review p quality now).repetitions = p.repetitions + 1 := by
  have hq : ¬ quality < 3 := by rcases h with h | h | h <;> omega
  unfold calculate_next_review
  refine ⟨fun h0 => ?_, fun h1 => ?_, fun h2 => ?_, ?_⟩
  · simp [hq, h0]
  · have h0 : ¬ p.repetitions = 0 := by omega
    simp [hq, h0, h1]
  · have h0 : ¬ p.repetitions = 0 := by omega
    have h1 : ¬ p.repetitions = 1 := by omega
    simp [hq, h0, h1]
  · simp only [if_neg hq]
    split <;> [rfl; (split <;> rfl)]

theorem success_updates_interval_witness :
    (calculate_next_review ⟨2.5, 6, 1, 0⟩ 4 0).interval = 6 :=
  (success_updates_interval ⟨2.5, 6, 1, 0⟩ 4 0 (Or.inr (Or.inl rfl))).2.1 rfl

/-- C3: For every progress state and every quality in [0,5], in both
branches the new ease factor equals
`max(1.3, ease + (0.1 - (5-q) * (0.08 + (5-q) * 0.02)))`; for a fixed prior
ease factor it is monotonically non-decreasing in quality, it never falls
below 1.3, and quality 4 leaves an ease factor already ≥ 1.3 unchanged. -/
theorem ease_factor_update (p : Progress) (quality now : ℤ)
    (hq0 : 0 ≤ quality) (hq5 : quality ≤ 5) :
    ((calculate_next_review p quality now).easeFactor =
      max (1.3 : ℚ)
        (p.easeFactor +
          ((0.1 : ℚ) - (5 - (quality : ℚ)) * ((0.08 : ℚ) + (5 - (quality : ℚ)) * (0.02 : ℚ))))) ∧
    (∀ q' : ℤ, quality ≤ q' → q' ≤ 5 →
      (calculate_next_review p quality now).easeFactor ≤
        (calculate_next_review p q' now).easeFactor) ∧
    ((1.3 : ℚ) ≤ (calculate_next_review p quality now).easeFactor) ∧
    ((1.3 : ℚ) ≤ p.easeFactor → (calculate_next_review p 4 now).easeFactor = p.easeFactor) := by
  refine ⟨calculate_next_review_easeFactor p quality now, ?_, ?_, ?_⟩
  · intro q' hle hq5'
    rw [calculate_next_review_easeFactor, calculate_next_review_easeFactor]
    refine max_le_max le_rfl (add_le_add_left ?_ _)
    have ha : (quality : ℚ) ≤ (q' : ℚ) := by exact_mod_cast hle
    have hb : (q' : ℚ) ≤ 5 := by exact_mod_cast hq5'
    nlinarith [mul_nonneg (sub_nonneg.2 ha)
      (show (0 : ℚ) ≤ 10 - (quality : ℚ) - (q' : ℚ) by linarith)]
  · rw [calculate_next_review_easeFactor]
    exact le_max_left _ _
  · intro hef
    rw [calculate_next_review_easeFactor]
    have h0 : ((0.1 : ℚ) - (5 - ((4 : ℤ) : ℚ)) * ((0.08 : ℚ) + (5 - ((4 : ℤ) : ℚ)) * (0.02 : ℚ)))
        = 0 := by norm_num
    rw [h0, add_zero]
    exact max_eq_right hef

theorem ease_factor_update_witness :
    (1.3 : ℚ) ≤ (calculate_next_review ⟨2.5, 1, 0, 0⟩ 3 0).easeFactor :=
  (ease_factor_update ⟨2.5, 1, 0, 0⟩ 3 0 (by decide) (by decide)).2.2.1

/-- C9: The scheduler preserves the Progress invariant: from
`ease_factor ≥ 1.3`, `interval ≥ 1`, `repetitions ≥ 0` and quality in [0,5],
the returned progress again satisfies all three bounds. -/
theorem scheduler_preserves_invariant (p : Progress) (quality now : ℤ)
    (hef : (1.3 : ℚ) ≤ p.easeFactor) (hint : 1 ≤ p.interval) (hrep : 0 ≤ p.repetitions)
    (hq0 : 0 ≤ quality) (hq5 : quality ≤ 5) :
    (1.3 : ℚ) ≤ (calculate_next_review p quality now).easeFactor ∧
      1 ≤ (calculate_next_review p quality now).interval ∧
      0 ≤ (calculate_next_review p quality now).repetitions := by
  refine ⟨?_, ?_, ?_⟩
  · rw [calculate_next_review_easeFactor]
    exact le_max_left _ _
  · unfold calculate_next_review
    dsimp only
    split
    · norm_num
    · split
      · norm_num
      · split
        · norm_num
        · have h1 : (1 : ℚ) ≤ (p.interval : ℚ) := by exact_mod_cast hint
          have h2 : (1 : ℚ) * 1 ≤ (p.interval : ℚ) * p.easeFactor :=
            mul_le_mul h1 (by linarith) (by norm_num) (by linarith)
          exact le_pythonRound_of_le (by push_cast; linarith)
  · unfold calculate_next_review
    dsimp only
    split
    · norm_num
    · split <;> [skip; split] <;> dsimp only <;> omega

theorem scheduler_preserves_invariant_witness :
    (1.3 : ℚ) ≤ (calculate_next_review ⟨2.5, 6, 2, 0⟩ 5 0).easeFactor ∧
      1 ≤ (calculate_next_review ⟨2.5, 6, 2, 0⟩ 5 0).interval ∧
      0 ≤ (calculate_next_review ⟨2.5, 6, 2, 0⟩ 5 0).repetitions :=
  scheduler_preserves_invariant ⟨2.5, 6, 2, 0⟩ 5 0 (by norm_num) (by decide) (by decide)
    (by decide) (by decide)

/-! ### Due-card query (`get_due_cards`, utils.py lines 67-77) -/

/-- The fields of a `Card` that the due-card query reads: its id and its
`next_review` timestamp. -/
structure DueCard where
  id : ℤ
  nextReview : ℤ
deriving DecidableEq, Repr

/-- Comparison used by `order_by` on the single key `next_review`. -/
def byNextReview (a b : DueCard) : Prop := a.nextReview ≤ b.nextReview

instance : DecidableRel byNextReview := fun a b => Int.decLe _ _

instance : IsTotal DueCard byNextReview := ⟨fun a b => le_total a.nextReview b.nextReview⟩

instance : IsTrans DueCard byNextReview := ⟨fun _ _ _ => le_trans⟩

/-- `get_due_cards` (utils.py lines 67-77): the deck's cards with
`next_review ≤ now`, ordered ascending by `next_review`. The query names no
second sort key, so ties keep the underlying storage order (stable sort). -/
def get_due_cards (cards : List DueCard) (now : ℤ) : List DueCard :=
  List.insertionSort byNextReview (cards.filter (fun c => c.nextReview ≤ now))

/-- The ordering the specification describes instead: ascending
`next_review` with ties broken by ascending card id. -/
def byNextReviewThenId (a b : DueCard) : Prop :=
  a.nextReview < b.nextReview ∨ (a.nextReview = b.nextReview ∧ a.id ≤ b.id)

instance : DecidableRel byNextReviewThenId := fun _ _ => inferInstanceAs (Decidable (_ ∨ _))

/-- Due cards ordered the way the specification claims (tie break by id). -/
def get_due_cards_specOrder (cards : List DueCard) (now : ℤ) : List DueCard :=
  List.insertionSort byNextReviewThenId (cards.filter (fun c => c.nextReview ≤ now))

/-- C4 counterexample: two due cards stored as id 2 before id 1 with equal
`next_review`. The code leaves them in storage order [2, 1]; tie-breaking
by card id would return [1, 2]. -/
theorem due_cards_tie_not_broken_by_id :
    get_due_cards [⟨2, 0⟩, ⟨1, 0⟩] 0 ≠ get_due_cards_specOrder [⟨2, 0⟩, ⟨1, 0⟩] 0 ∧
      get_due_cards [⟨2, 0⟩, ⟨1, 0⟩] 0 = [⟨2, 0⟩, ⟨1, 0⟩] ∧
      get_due_cards_specOrder [⟨2, 0⟩, ⟨1, 0⟩] 0 = [⟨1, 0⟩, ⟨2, 0⟩] := by
  refine ⟨by decide, rfl, rfl⟩

/-- C4 amended: the due-card query returns exactly the cards with
`next_review ≤ as_of` (cards strictly after `as_of` are excluded), ordered
ascending by `next_review`; ties in `next_review` keep the underlying
storage order and are not broken by card id. -/
theorem due_cards_filter_and_order (cards : List DueCard) (now : ℤ) :
    (get_due_cards cards now).Perm (cards.filter (fun c => c.nextReview ≤ now)) ∧
      (get_due_cards cards now).Pairwise byNextReview ∧
      (∀ c, c ∈ get_due_cards cards now ↔ c ∈ cards ∧ c.nextReview ≤ now) := by
  refine ⟨List.perm_insertionSort _ _, List.sorted_insertionSort _ _, fun c => ?_⟩
  unfold get_due_cards
  rw [(List.perm_insertionSort byNextReview _).mem_iff, List.mem_filter]
  simp

/-! ### Partnerships and deck permissions (models.py) -/

/-- `Partnership` (models.py lines 284-338): both members, the soft-delete
flag, and the ids of the decks shared through it (M2M `decks`), in storage
order. -/
structure Partnership where
  userA : ℤ
  userB : ℤ
  isActive : Bool
  decks : List ℤ
deriving DecidableEq, Repr

/-- `Partnership.has_member` (models.py lines 336-338). -/
def Partnership.has_member (p : Partnership) (user : ℤ) : Bool :=
  user = p.userA || user = p.userB

/-- `Deck` (models.py lines 21-73): owner (`user`) and nullable
`created_by`. -/
structure Deck where
  id : ℤ
  user : ℤ
  createdBy : Option ℤ
deriving DecidableEq, Repr

/-- The reverse M2M `self.partnerships`: partnerships whose shared decks
include this deck, in storage order. -/
def Deck.partnershipsOf (d : Deck) (ps : List Partnership) : List Partnership :=
  ps.filter (fun p => decide (d.id ∈ p.decks))

/-- `Deck.can_edit` (models.py lines 57-69): the creator may edit, the
owner may edit, and otherwise only the FIRST active partnership sharing the
deck (`.filter(is_active=True).first()`) is consulted for membership. -/
def Deck.can_edit (d : Deck) (ps : List Partnership) (user : ℤ) : Bool :=
  if d.createdBy = some user then true
  else if d.user = user then true
  else
    match ((d.partnershipsOf ps).filter (fun p => p.isActive)).head? with
    | some p => p.has_member user
    | none => false

/-- `Deck.can_view` (models.py lines 71-73): same permissions as editing. -/
def Deck.can_view (d : Deck) (ps : List Partnership) (user : ℤ) : Bool :=
  d.can_edit ps user

/-- C5 counterexample: deck 1 (creator and owner 10) is shared through two
active partnerships, (10,20) stored first and (10,30) second. User 30 is a
member of an active partnership sharing the deck, yet `can_edit` consults
only the first active partnership and denies user 30. -/
theorem can_edit_ignores_second_partnership :
    Deck.can_edit ⟨1, 10, some 10⟩
        [⟨10, 20, true, [1]⟩, ⟨10, 30, true, [1]⟩] 30 = false ∧
      ∃ p ∈ [(⟨10, 20, true, [1]⟩ : Partnership), ⟨10, 30, true, [1]⟩],
        p.isActive = true ∧ (1 : ℤ) ∈ p.decks ∧ p.has_member 30 = true := by
  refine ⟨by decide, ⟨10, 30, true, [1]⟩, by decide, rfl, by decide, by decide⟩

/-- C5 amended: `can_edit` is true exactly when the user is the deck's
creator, or its owner, or a member of the first active partnership sharing
the deck (later active partnerships are not consulted); `can_view` always
coincides with `can_edit`. In particular, once no active partnership shares
the deck (e.g. after dissolution), a user who is neither creator nor owner
is denied again. -/
theorem can_edit_characterization (d : Deck) (ps : List Partnership) (user : ℤ) :
    (d.can_edit ps user = true ↔
      d.createdBy = some user ∨ d.user = user ∨
        ∃ p, ((d.partnershipsOf ps).filter (fun p => p.isActive)).head? = some p ∧
          p.has_member user = true) ∧
    d.can_view ps user = d.can_edit ps user := by
  refine ⟨?_, rfl⟩
  unfold Deck.can_edit
  split
  · simp [*]
  · split
    · simp [*]
    · cases h : ((d.partnershipsOf ps).filter (fun p => p.isActive)).head? with
      | none => simp [h, *]
      | some p => simp [h, *]

/-! ### Partnership invitations (models.py lines 341-403) -/

/-- `PartnershipInvitation`: the fields `is_valid` reads. -/
structure PartnershipInvitation where
  inviter : ℤ
  expiresAt : ℤ
  acceptedBy : Option ℤ
deriving DecidableEq, Repr

/-- `PartnershipInvitation.is_valid` (models.py lines 390-395):
`accepted_by is None and expires_at > now`. -/
def PartnershipInvitation.is_valid (inv : PartnershipInvitation) (now : ℤ) : Bool :=
  inv.acceptedBy.isNone && decide (inv.expiresAt > now)

/-- C8 counterexample: an unaccepted invitation evaluated at the instant
`now = expires_at` is already invalid, although under the claim's
`now > expires_at` wording it would still be valid there. -/
theorem invitation_invalid_at_expiry_instant :
    PartnershipInvitation.is_valid ⟨1, 100, none⟩ 100 = false ∧
      (⟨1, 100, none⟩ : PartnershipInvitation).acceptedBy = none ∧
      ¬ (100 : ℤ) > 100 := by
  exact ⟨rfl, rfl, by omega⟩

/-- C8 amended: an invitation is valid exactly when `accepted_by` is unset
and `now` is strictly before `expires_at`; it becomes invalid when
`accepted_by` is set or `now ≥ expires_at`, so it is already invalid at the
instant `now = expires_at`. -/
theorem invitation_validity (inv : PartnershipInvitation) (now : ℤ) :
    inv.is_valid now = true ↔ inv.acceptedBy = none ∧ now < inv.expiresAt := by
  simp [PartnershipInvitation.is_valid, Option.isNone_iff_eq_none, gt_iff_lt]

/-! ### Review submission (views.py lines 474-536) -/

/-- A JSON value as returned by `data.get('quality')`: an integer or some
non-integer JSON value. -/
inductive JsonVal where
  | jint (n : ℤ)
  | jother
deriving DecidableEq, Repr

/-- A legacy `Card` row as touched by `submit_review`: id, the owner of its
deck (`deck__user`), and its scheduling state. -/
structure CardRow where
  id : ℤ
  deckUser : ℤ
  progress : Progress
deriving DecidableEq, Repr

/-- A `StudySession` row as touched by `submit_review`. -/
structure SessionRow where
  id : ℤ
  user : ℤ
  cardsStudied : ℤ
deriving DecidableEq, Repr

/-- A `Review` row as created by `submit_review`. -/
structure ReviewRow where
  cardId : ℤ
  sessionId : ℤ
  quality : ℤ
  timeTaken : ℤ
deriving DecidableEq, Repr

/-- The database state `submit_review` reads and writes. -/
structure StoreState where
  cards : List CardRow
  sessions : List SessionRow
  reviews : List ReviewRow
deriving DecidableEq, Repr

/-- The parsed request body: `data.get('quality')`, `data.get('session_id')`
and `data.get('time_taken', 0)`. -/
structure ReviewRequest where
  quality : Option JsonVal
  sessionId : Option ℤ
  timeTaken : ℤ
deriving DecidableEq, Repr

/-- The JSON responses `submit_review` can produce. -/
inductive ReviewResponse where
  | ok (easeFactor : ℚ) (interval : ℤ) (repetitions : ℤ) (nextReview : ℤ)
  | invalidInput
  | notFound
deriving DecidableEq, Repr

/-- `submit_review` (views.py lines 474-536), from the point where the JSON
body has been parsed. Returns the response, the new database state, and the
list of warning signals the handler emits; the handler contains no logging
call of any kind, so that list is always empty — in particular the
`StudySession.DoesNotExist` branch is a bare `pass`. -/
def submit_review (st : StoreState) (user cardId : ℤ) (req : ReviewRequest) (now : ℤ) :
    ReviewResponse × StoreState × List String :=
  match st.cards.find? (fun c => c.id == cardId && c.deckUser == user) with
  | none => (.notFound, st, [])
  | some card =>
    match req.quality with
    | none => (.invalidInput, st, [])
    | some .jother => (.invalidInput, st, [])
    | some (.jint q) =>
      if q < 0 ∨ 5 < q then (.invalidInput, st, [])
      else
        -- Apply SM-2 algorithm and save the card
        let newProg := calculate_next_review card.progress q now
        let st1 : StoreState :=
          { st with
            cards := st.cards.map fun c =>
              if c.id = card.id then { c with progress := newProg } else c }
        -- Record the review (`if session_id:` is Python truthiness)
        let st2 : StoreState :=
          match req.sessionId with
          | some sid =>
            if sid ≠ 0 then
              match st1.sessions.find? (fun s => s.id == sid && s.user == user) with
              | some session =>
                { st1 with
                  reviews := st1.reviews ++ [⟨card.id, sid, q, req.timeTaken⟩],
                  sessions := st1.sessions.map fun s =>
                    if s.id = session.id then { s with cardsStudied := s.cardsStudied + 1 }
                    else s }
              | none => st1  -- Session not found, but we still update the card
            else st1
          | none => st1
        (.ok newProg.easeFactor newProg.interval newProg.repetitions newProg.nextReview, st2, [])

/-- C6: a review submission whose quality is missing, not an integer, or
outside [0,5] fails with InvalidInput before the scheduler runs: the
database state — card scheduling state and review log — is unchanged. -/
theorem invalid_quality_rejected (st : StoreState) (user cardId : ℤ)
    (req : ReviewRequest) (now : ℤ)
    (hq : req.quality = none ∨ req.quality = some .jother ∨
      ∃ q, req.quality = some (.jint q) ∧ (q < 0 ∨ 5 < q))
    (hc : (st.cards.find? (fun c => c.id == cardId && c.deckUser == user)).isSome) :
    (submit_review st user cardId req now).1 = .invalidInput ∧
      (submit_review st user cardId req now).2.1 = st := by
  unfold submit_review
  cases hfind : st.cards.find? (fun c => c.id == cardId && c.deckUser == user) with
  | none => rw [hfind] at hc; simp at hc
  | some card =>
    rcases hq with h | h | ⟨q, h, hq2⟩ <;> rw [h] <;> dsimp only
    · exact ⟨rfl, rfl⟩
    · exact ⟨rfl, rfl⟩
    · rw [if_pos hq2]
      exact ⟨rfl, rfl⟩

theorem invalid_quality_rejected_witness :
    (submit_review ⟨[⟨1, 10, ⟨2.5, 1, 0, 0⟩⟩], [], []⟩ 10 1 ⟨some (.jint 7), none, 0⟩ 0).1
        = .invalidInput ∧
      (submit_review ⟨[⟨1, 10, ⟨2.5, 1, 0, 0⟩⟩], [], []⟩ 10 1 ⟨some (.jint 7), none, 0⟩ 0).2.1
        = ⟨[⟨1, 10, ⟨2.5, 1, 0, 0⟩⟩], [], []⟩ :=
  invalid_quality_rejected _ 10 1 _ 0 (Or.inr (Or.inr ⟨7, rfl, Or.inr (by omega)⟩))
    (by simp [List.find?])

/-- C7 counterexample: card 1 exists for user 10, session 99 does not. The
submission succeeds and returns the scheduler-updated state, but the
handler emits no warning signal whatsoever (the missing-session branch is a
bare `pass`), contradicting the claimed observability of the omission. -/
theorem missing_session_emits_no_signal :
    (submit_review ⟨[⟨1, 10, ⟨2.5, 1, 0, 0⟩⟩], [], []⟩ 10 1 ⟨some (.jint 5), some 99, 3⟩ 0).2.2
        = [] ∧
      (submit_review ⟨[⟨1, 10, ⟨2.5, 1, 0, 0⟩⟩], [], []⟩ 10 1 ⟨some (.jint 5), some 99, 3⟩ 0).1
        = .ok (calculate_next_review ⟨2.5, 1, 0, 0⟩ 5 0).easeFactor
            (calculate_next_review ⟨2.5, 1, 0, 0⟩ 5 0).interval
            (calculate_next_review ⟨2.5, 1, 0, 0⟩ 5 0).repetitions
            (calculate_next_review ⟨2.5, 1, 0, 0⟩ 5 0).nextReview ∧
      (submit_review ⟨[⟨1, 10, ⟨2.5, 1, 0, 0⟩⟩], [], []⟩ 10 1 ⟨some (.jint 5), some 99, 3⟩ 0).2.1.reviews
        = [] :=
  ⟨rfl, rfl, rfl⟩

/-- C7 amended: if the referenced session does not exist for that user, the
progress update still succeeds — the card's scheduling state is updated by
the scheduler and returned — but the omission of the review/session linkage
is silent: no Review row is appended, no session is modified, and no
warning-level signal is emitted. -/
theorem missing_session_silent_success (st : StoreState) (user cardId : ℤ)
    (req : ReviewRequest) (now q sid : ℤ) (card : CardRow)
    (hfind : st.cards.find? (fun c => c.id == cardId && c.deckUser == user) = some card)
    (hq : req.quality = some (.jint q)) (hq0 : 0 ≤ q) (hq5 : q ≤ 5)
    (hsid : req.sessionId = some sid) (hsid0 : sid ≠ 0)
    (hsess : st.sessions.find? (fun s => s.id == sid && s.user == user) = none) :
    (submit_review st user cardId req now).1 =
        .ok (calculate_next_review card.progress q now).easeFactor
          (calculate_next_review card.progress q now).interval
          (calculate_next_review card.progress q now).repetitions
          (calculate_next_review card.progress q now).nextReview ∧
      (submit_review st user cardId req now).2.1.cards =
        (st.cards.map fun c =>
          if c.id = card.id then { c with progress := calculate_next_review card.progress q now }
          else c) ∧
      (submit_review st user cardId req now).2.1.reviews = st.reviews ∧
      (submit_review st user cardId req now).2.1.sessions = st.sessions ∧
      (submit_review st user cardId req now).2.2 = [] := by
  unfold submit_review
  rw [hfind, hq]
  dsimp only
  rw [if_neg (by omega)]
  rw [hsid]
  dsimp only
  rw [if_pos hsid0]
  rw [hsess]
  exact ⟨rfl, rfl, rfl, rfl, rfl⟩

theorem missing_session_silent_success_witness :
    (submit_review ⟨[⟨2, 11, ⟨2.5, 6, 2, 0⟩⟩], [⟨7, 12, 0⟩], []⟩ 11 2
          ⟨some (.jint 4), some 7, 5⟩ 0).2.1.reviews = [] ∧
      (submit_review ⟨[⟨2, 11, ⟨2.5, 6, 2, 0⟩⟩], [⟨7, 12, 0⟩], []⟩ 11 2
          ⟨some (.jint 4), some 7, 5⟩ 0).2.2 = [] :=
  ⟨(missing_session_silent_success _ 11 2 _ 0 4 7 ⟨2, 11, ⟨2.5, 6, 2, 0⟩⟩
      (by simp [List.find?]) rfl (by omega) (by omega) rfl (by omega)
      (by simp [List.find?])).2.2.1,
    (missing_session_silent_success _ 11 2 _ 0 4 7 ⟨2, 11, ⟨2.5, 6, 2, 0⟩⟩
      (by simp [List.find?]) rfl (by omega) (by omega) rfl (by omega)
      (by simp [List.find?])).2.2.2.2⟩

/-! ### Statistics aggregation (`get_study_stats`, utils.py lines 80-199) -/

/-- A `Review` row as read by `get_study_stats`: the deck of its card
(`card__deck`), the user of its session (`session__user`), its quality,
its timestamp and its `time_taken`. -/
structure StatReview where
  cardDeck : ℤ
  sessionUser : ℤ
  quality : ℤ
  reviewedAt : ℤ
  timeTaken : ℤ
deriving DecidableEq, Repr

/-- A `Card` row as read by `get_study_stats`. -/
structure StatCard where
  deckId : ℤ
  nextReview : ℤ
deriving DecidableEq, Repr

/-- The tables `get_study_stats` queries. -/
structure StatsDB where
  decks : List Deck
  cards : List StatCard
  reviews : List StatReview
  partnerships : List Partnership
deriving Repr

/-- The three call shapes of `get_study_stats(user, deck, deck_filter)`:
a single deck, an explicit deck set, or neither (all accessible decks). -/
inductive StatsScope where
  | deck (d : Deck)
  | deckFilter (ds : List Deck)
  | all
deriving Repr

/-- One bucket of `recent_activity`; the day is identified by the start of
its calendar day (`date.replace(hour=0, ...)`, second granularity). -/
structure ActivityDay where
  date : ℤ
  cardsStudied : ℕ
  timeSpent : ℤ
deriving DecidableEq, Repr

/-- The dictionary `get_study_stats` returns; the personal/shared breakdown
fields are `none` unless the all-decks branch ran. -/
structure Stats where
  totalReviews : ℕ
  totalCards : ℕ
  averageQuality : ℚ
  cardsDueToday : ℕ
  studyStreakDays : ℕ
  totalDecks : ℕ
  recentActivity : List ActivityDay
  personalDecks : Option ℕ
  sharedDecks : Option ℕ
  personalCards : Option ℕ
  sharedCards : Option ℕ
deriving DecidableEq, Repr

/-- Start of the calendar day containing `t`, at second granularity with
UTC-aligned days (`date.replace(hour=0, minute=0, second=0, ...)`). -/
def dayStart (t : ℤ) : ℤ := 86400 * Int.fdiv t 86400

/-- Python `round(x, 2)` on the exact-rational model. -/
def roundTo2 (x : ℚ) : ℚ := (pythonRound (x * 100) : ℚ) / 100

/-- `Deck.objects.filter(user=user)` (utils.py line 124). -/
def personalDecksOf (db : StatsDB) (user : ℤ) : List Deck :=
  db.decks.filter (fun d => d.user = user)

/-- The shared-deck queryset of utils.py lines 126-129: decks reached
through an active partnership containing the user, excluding decks the user
owns. -/
def sharedDecksOf (db : StatsDB) (user : ℤ) : List Deck :=
  db.decks.filter (fun d =>
    (db.partnerships.any fun p =>
      decide (((p.userA = user ∧ p.isActive = true) ∨ (p.userB = user ∧ p.isActive = true)) ∧
        d.id ∈ p.decks)) = true ∧ ¬ d.user = user)

/-- `user_decks = personal_decks | shared_decks` (utils.py line 132), as a
distinct union over the deck table. -/
def userDecksOf (db : StatsDB) (user : ℤ) : List Deck :=
  db.decks.filter (fun d => d ∈ personalDecksOf db user ∨ d ∈ sharedDecksOf db user)

/-- `get_study_stats` (utils.py lines 80-199). `now` is `timezone.now()`.
The activity dates are reported as day-start timestamps rather than
formatted strings. -/
def get_study_stats (db : StatsDB) (user : ℤ) (scope : StatsScope) (now : ℤ) : Stats :=
  -- Filter reviews by deck if specified
  let reviews : List StatReview :=
    match scope with
    | .deck d => db.reviews.filter (fun r => r.cardDeck = d.id)
    | .deckFilter ds =>
        db.reviews.filter (fun r => r.sessionUser = user ∧ r.cardDeck ∈ ds.map Deck.id)
    | .all => db.reviews.filter (fun r => r.sessionUser = user)
  let cards : List StatCard :=
    match scope with
    | .deck d => db.cards.filter (fun c => c.deckId = d.id)
    | .deckFilter ds => db.cards.filter (fun c => c.deckId ∈ ds.map Deck.id)
    | .all => db.cards.filter (fun c => c.deckId ∈ (userDecksOf db user).map Deck.id)
  let totalDecks : ℕ :=
    match scope with
    | .deck _ => 1
    | .deckFilter ds => ds.length
    | .all => (userDecksOf db user).length
  -- Average quality: round(avg or 0, 2)
  let averageQuality : ℚ :=
    roundTo2 (if reviews.length = 0 then 0
      else ((reviews.map (fun r => (r.quality : ℚ))).sum) / (reviews.length : ℚ))
  -- Cards due today
  let cardsDueToday := (cards.filter (fun c => c.nextReview ≤ now)).length
  -- Study streak (studied in last 24h)
  let studyStreakDays : ℕ :=
    if (reviews.filter (fun r => now - 86400 ≤ r.reviewedAt)).length ≠ 0 then 1 else 0
  -- Recent activity (last 7 days), oldest to newest
  let recentActivity : List ActivityDay :=
    ((List.range 7).map fun i =>
      let ds := dayStart (now - 86400 * (i : ℤ))
      let de := ds + 86399
      let dayReviews := reviews.filter (fun r => ds ≤ r.reviewedAt ∧ r.reviewedAt ≤ de)
      ({ date := ds, cardsStudied := dayReviews.length,
         timeSpent := (dayReviews.map (fun r => r.timeTaken)).sum } : ActivityDay)).reverse
  { totalReviews := reviews.length
    totalCards := cards.length
    averageQuality := averageQuality
    cardsDueToday := cardsDueToday
    studyStreakDays := studyStreakDays
    totalDecks := totalDecks
    recentActivity := recentActivity
    personalDecks :=
      match scope with
      | .all => some (personalDecksOf db user).length
      | _ => none
    sharedDecks :=
      match scope with
      | .all => some (sharedDecksOf db user).length
      | _ => none
    personalCards :=
      match scope with
      | .all => some ((db.cards.filter
          (fun c => c.deckId ∈ (personalDecksOf db user).map Deck.id)).length)
      | _ => none
    sharedCards :=
      match scope with
      | .all => some ((db.cards.filter
          (fun c => c.deckId ∈ (sharedDecksOf db user).map Deck.id)).length)
      | _ => none }

/-- C10: with a single deck given, `get_study_stats` computes every
statistic — total reviews, average quality, streak, 7-day activity — over
that deck's reviews with no filter on the requesting user (the whole result
is independent of which user asks), while the all-decks scope counts only
the requesting user's own reviews. -/
theorem stats_deck_scope_ignores_user (db : StatsDB) (u1 u2 : ℤ) (d : Deck) (now : ℤ) :
    get_study_stats db u1 (.deck d) now = get_study_stats db u2 (.deck d) now ∧
      (get_study_stats db u1 (.deck d) now).totalReviews =
        (db.reviews.filter (fun r => r.cardDeck = d.id)).length ∧
      (get_study_stats db u1 .all now).totalReviews =
        (db.reviews.filter (fun r => r.sessionUser = u1)).length :=
  ⟨rfl, rfl, rfl⟩

end Flashcards
